import Mathlib

/-!
Verification development for a generic deep-clone engine
(package `cloner`, file with `CloneManager`, `deepClone`, `clonePtr`,
`cloneSlice`, `cloneArray`, `cloneMap`, `cloneStruct`, `cloneInterface`,
the generic wrapper `Clone[T]`, and the `Cloneable` / `Cloner`
extension points).

The Go values traversed by `reflect` are embedded as an inductive `Val`
over an explicit heap: pointer referents, slice backing arrays and map
storage live in heap cells addressed by natural numbers, mirroring the
`uintptr` identities the engine keys its visited registry on.  The
engine itself is embedded as a fuel-indexed function `deepClone`; fuel
exhaustion (`oof`) models non-terminating recursion, and `panicked`
models the `reflect` runtime panics the source can trigger (calling
`Set`, `Convert` or `SetMapIndex` with a zero `reflect.Value`, or
`IsNil` on a non-nilable value).  `reflect.Value.Set` type-mismatch
panics are not modelled; every other branch follows the source.
-/

/-- Go types as far as the engine inspects them: `reflect.Type` keys for
the cloner registry and `src.Type()` / `src.Elem().Type()` uses.
Struct types are identified by name. -/
inductive Ty where
  | intT : Ty
  | strT : Ty
  | boolT : Ty
  | ptrT (t : Ty) : Ty
  | sliceT (t : Ty) : Ty
  | arrayT (t : Ty) : Ty
  | mapT (k v : Ty) : Ty
  | structT (name : String) : Ty
  | ifaceT : Ty
  | chanT (t : Ty) : Ty
  | funcT : Ty
deriving DecidableEq, Repr

/-- A Go value as seen through `reflect`.  Reference-typed values
(`ptrV`, `sliceV`, `mapV`) carry the address of their storage cell,
which is what `src.Pointer()` returns; each has a nil form.  Struct
fields carry the `CanSet` capability of the corresponding
`reflect.Value` field. -/
inductive Val where
  | intV (n : Int) : Val
  | strV (s : String) : Val
  | boolV (b : Bool) : Val
  | ptrV (t : Ty) (a : Nat) : Val
  | nilPtr (t : Ty) : Val
  | sliceV (t : Ty) (a : Nat) : Val
  | nilSlice (t : Ty) : Val
  | arrV (t : Ty) (elems : List Val) : Val
  | mapV (k v : Ty) (a : Nat) : Val
  | nilMap (k v : Ty) : Val
  | structV (name : String) (fields : List (Bool × Val)) : Val
  | ifaceV (inner : Option Val) : Val
  | chanV (t : Ty) : Val
  | funcV : Val

/-- `src.Type()`: the reflect type of a value. -/
def tyOf : Val → Ty
  | .intV _ => .intT
  | .strV _ => .strT
  | .boolV _ => .boolT
  | .ptrV t _ => .ptrT t
  | .nilPtr t => .ptrT t
  | .sliceV t _ => .sliceT t
  | .nilSlice t => .sliceT t
  | .arrV t _ => .arrayT t
  | .mapV k v _ => .mapT k v
  | .nilMap k v => .mapT k v
  | .structV n _ => .structT n
  | .ifaceV _ => .ifaceT
  | .chanV t => .chanT t
  | .funcV => .funcT

mutual
/-- The zero value of a value's type, as produced by
`reflect.New(t).Elem()` (used for fresh structs, arrays, and the
elements of a `reflect.MakeSlice` result). -/
def zeroOf : Val → Val
  | .intV _ => .intV 0
  | .strV _ => .strV ""
  | .boolV _ => .boolV false
  | .ptrV t _ => .nilPtr t
  | .nilPtr t => .nilPtr t
  | .sliceV t _ => .nilSlice t
  | .nilSlice t => .nilSlice t
  | .arrV t es => .arrV t (zeroOfList es)
  | .mapV k v _ => .nilMap k v
  | .nilMap k v => .nilMap k v
  | .structV n fs => .structV n (zeroOfFields fs)
  | .ifaceV _ => .ifaceV none
  | .chanV t => .chanV t
  | .funcV => .funcV

/-- Zero values of a list of values, elementwise. -/
def zeroOfList : List Val → List Val
  | [] => []
  | v :: rest => zeroOf v :: zeroOfList rest

/-- Zero values of struct fields, keeping settability flags. -/
def zeroOfFields : List (Bool × Val) → List (Bool × Val)
  | [] => []
  | (b, v) :: rest => (b, zeroOf v) :: zeroOfFields rest
end

mutual
/-- Go `==` comparison on values, used for map keys. -/
def valBeq : Val → Val → Bool
  | .intV n, .intV m => n == m
  | .strV s, .strV s' => s == s'
  | .boolV b, .boolV b' => b == b'
  | .ptrV t a, .ptrV t' a' => t == t' && a == a'
  | .nilPtr t, .nilPtr t' => t == t'
  | .sliceV t a, .sliceV t' a' => t == t' && a == a'
  | .nilSlice t, .nilSlice t' => t == t'
  | .arrV t es, .arrV t' es' => t == t' && valsBeq es es'
  | .mapV k v a, .mapV k' v' a' => k == k' && v == v' && a == a'
  | .nilMap k v, .nilMap k' v' => k == k' && v == v'
  | .structV n fs, .structV n' fs' => n == n' && fieldsBeq fs fs'
  | .ifaceV (some u), .ifaceV (some u') => valBeq u u'
  | .ifaceV none, .ifaceV none => true
  | .chanV t, .chanV t' => t == t'
  | .funcV, .funcV => true
  | _, _ => false

/-- Elementwise equality of value lists. -/
def valsBeq : List Val → List Val → Bool
  | [], [] => true
  | v :: r, v' :: r' => valBeq v v' && valsBeq r r'
  | _, _ => false

/-- Elementwise equality of struct field lists. -/
def fieldsBeq : List (Bool × Val) → List (Bool × Val) → Bool
  | [], [] => true
  | (b, v) :: r, (b', v') :: r' => b == b' && valBeq v v' && fieldsBeq r r'
  | _, _ => false
end

/-- A heap cell: the storage a reference-typed value points at. -/
inductive Cell where
  | refC (v : Val) : Cell
  | arrC (elems : List Val) : Cell
  | mapC (entries : List (Val × Val)) : Cell

/-- First-match lookup in an association list keyed by addresses,
modelling Go map indexing of `visited` and dereferencing the heap. -/
def assocFind {α : Type} : List (Nat × α) → Nat → Option α
  | [], _ => none
  | (k, v) :: rest, a => if k = a then some v else assocFind rest a

/-- Replace the first binding of an address, used for in-place updates
of freshly allocated clone cells. -/
def assocSet {α : Type} : List (Nat × α) → Nat → α → List (Nat × α)
  | [], _, _ => []
  | (k, v) :: rest, a, w => if k = a then (k, w) :: rest else (k, v) :: assocSet rest a w

/-- The mutable state the engine threads: the heap, the next fresh
address, and the `CloneManager.visited` registry mapping a source
identity to its already-produced clone. -/
structure State where
  heap : List (Nat × Cell)
  next : Nat
  visited : List (Nat × Val)

/-- `NewCloneManager` paired with a pre-existing world: empty visited
registry over the given heap. -/
def NewCloneManager (heap : List (Nat × Cell)) (next : Nat) : State :=
  { heap := heap, next := next, visited := [] }

/-- The error taxonomy surfaced by the engine: `unclonable` for the
channel/function rejections and `castFail` for the typed wrapper's
failed assertion. -/
inductive Err where
  | unclonable (msg : String) : Err
  | castFail (msg : String) : Err

/-- Outcome of a clone step: a produced value (`none` models the Go
`nil` interface result) with the updated state, a returned error with
the state as mutated so far, a `reflect` runtime panic, or fuel
exhaustion standing for unbounded recursion. -/
inductive CRes (α : Type) where
  | ok (a : α) (st : State) : CRes α
  | err (e : Err) (st : State) : CRes α
  | panicked (msg : String) : CRes α
  | oof : CRes α

abbrev Res := CRes (Option Val)

/-- The recursion handle a composite cloner or extension cloner uses:
`cm.deepClone` at the remaining fuel. -/
abbrev RecFn := State → Val → Res

/-- An extension cloner or `Cloneable` implementation: it receives the
engine handle (through the manager) and the value, and may mutate the
session state only through that handle. -/
abbrev ClonerFn := RecFn → Val → State → Res

/-- The read-only dispatch environment: which dynamic types implement
`Cloneable`, and the `cm.cloners` registry populated by
`RegisterCloner` before cloning begins. -/
structure Env where
  selfClone : Ty → Option ClonerFn
  cloners : Ty → Option ClonerFn

/-- An environment with no `Cloneable` types and no registered cloners. -/
def emptyEnv : Env := { selfClone := fun _ => none, cloners := fun _ => none }

/-- Store a cloned element into a freshly made slice backing:
`clone.Index(i).Set(...)`. -/
def setArrElem (st : State) (b : Nat) (i : Nat) (w : Val) : State :=
  match assocFind st.heap b with
  | some (.arrC es) => { st with heap := assocSet st.heap b (.arrC (es.set i w)) }
  | _ => st

/-- Go map insertion: replace the value of an existing key, else append. -/
def mapInsertKV : List (Val × Val) → Val → Val → List (Val × Val)
  | [], k, v => [(k, v)]
  | (k', v') :: rest, k, v =>
      if valBeq k' k then (k, v) :: rest else (k', v') :: mapInsertKV rest k v

/-- Go map deletion, which `SetMapIndex` performs when handed a zero
`reflect.Value` as the element. -/
def mapDeleteK : List (Val × Val) → Val → List (Val × Val)
  | [], _ => []
  | (k', v') :: rest, k =>
      if valBeq k' k then rest else (k', v') :: mapDeleteK rest k

/-- `clone.SetMapIndex(reflect.ValueOf(ck), reflect.ValueOf(cv))` on the
fresh map cell `b`: a `none` key is a zero `reflect.Value` and panics,
a `none` element deletes the key. -/
def setMapIndex (st : State) (b : Nat) (ck : Option Val) (cv : Option Val) : CRes Unit :=
  match ck with
  | none => .panicked "reflect: SetMapIndex using zero Value key"
  | some k =>
    match assocFind st.heap b with
    | some (.mapC entries) =>
      match cv with
      | none => .ok () { st with heap := assocSet st.heap b (.mapC (mapDeleteK entries k)) }
      | some v => .ok () { st with heap := assocSet st.heap b (.mapC (mapInsertKV entries k v)) }
    | _ => .ok () st

/-- `src.Interface()` as used by the `Cloneable` type assertion: for an
interface-kinded value this is the wrapped dynamic value, for anything
else the value itself; `none` when the interface is nil. -/
def dynVal : Val → Option Val
  | .ifaceV i => i
  | v => some v

/-- `clonePtr`: return the registered clone on a visited identity,
otherwise recursively clone the referent, allocate fresh storage for
it, and only then create the visited entry.  The registration happening
after the recursion is exactly what the source does. -/
def clonePtr (rc : RecFn) (st : State) (t : Ty) (a : Nat) : Res :=
  match assocFind st.visited a with
  | some w => .ok (some w) st
  | none =>
    match assocFind st.heap a with
    | some (.refC pointee) =>
      match rc st pointee with
      | .ok none _ => .panicked "reflect: Set using zero Value argument"
      | .ok (some w) st1 =>
          .ok (some (.ptrV t st1.next))
            { heap := (st1.next, .refC w) :: st1.heap, next := st1.next + 1,
              visited := (a, Val.ptrV t st1.next) :: st1.visited }
      | .err e st1 => .err e st1
      | .panicked m => .panicked m
      | .oof => .oof
    | _ => .panicked "reflect: invalid pointer dereference"

/-- The element loop of `cloneSlice`: clone each source element in
order and `Set` it into the fresh backing cell `b`. -/
def cloneSliceElems (rc : RecFn) : State → Nat → Nat → List Val → CRes Unit
  | st, _, _, [] => .ok () st
  | st, b, i, e :: rest =>
    match rc st e with
    | .ok none _ => .panicked "reflect: Set using zero Value argument"
    | .ok (some w) st1 => cloneSliceElems rc (setArrElem st1 b i w) b (i + 1) rest
    | .err er st1 => .err er st1
    | .panicked m => .panicked m
    | .oof => .oof

/-- `cloneSlice`: check the visited registry by the backing-storage
address, make a fresh slice of the same length, register the clone
before the element loop, then clone each element by index. -/
def cloneSlice (rc : RecFn) (st : State) (t : Ty) (a : Nat) : Res :=
  match assocFind st.visited a with
  | some w => .ok (some w) st
  | none =>
    match assocFind st.heap a with
    | some (.arrC elems) =>
      let newSlice := Val.sliceV t st.next
      match cloneSliceElems rc
          { heap := (st.next, .arrC (zeroOfList elems)) :: st.heap, next := st.next + 1,
            visited := (a, newSlice) :: st.visited }
          st.next 0 elems with
      | .ok _ st2 => .ok (some newSlice) st2
      | .err e st2 => .err e st2
      | .panicked m => .panicked m
      | .oof => .oof
    | _ => .panicked "reflect: invalid slice storage"

/-- The element loop of `cloneArray`, building the cloned element list. -/
def cloneArrayElems (rc : RecFn) : State → List Val → CRes (List Val)
  | st, [] => .ok [] st
  | st, e :: rest =>
    match rc st e with
    | .ok none _ => .panicked "reflect: Set using zero Value argument"
    | .ok (some w) st1 =>
      match cloneArrayElems rc st1 rest with
      | .ok ws st2 => .ok (w :: ws) st2
      | .err er st2 => .err er st2
      | .panicked m => .panicked m
      | .oof => .oof
    | .err er st1 => .err er st1
    | .panicked m => .panicked m
    | .oof => .oof

/-- `cloneArray`: arrays have value semantics and no identity, so no
registry interaction; a fresh array is built elementwise. -/
def cloneArray (rc : RecFn) (st : State) (t : Ty) (elems : List Val) : Res :=
  match cloneArrayElems rc st elems with
  | .ok ws st1 => .ok (some (.arrV t ws)) st1
  | .err e st1 => .err e st1
  | .panicked m => .panicked m
  | .oof => .oof

/-- The entry loop of `cloneMap`: clone each key and value and
`SetMapIndex` them into the fresh map cell `b`. -/
def cloneMapEntries (rc : RecFn) : State → Nat → List (Val × Val) → CRes Unit
  | st, _, [] => .ok () st
  | st, b, (k, v) :: rest =>
    match rc st k with
    | .ok ck st1 =>
      match rc st1 v with
      | .ok cv st2 =>
        match setMapIndex st2 b ck cv with
        | .ok _ st3 => cloneMapEntries rc st3 b rest
        | .err e st3 => .err e st3
        | .panicked m => .panicked m
        | .oof => .oof
      | .err e st2 => .err e st2
      | .panicked m => .panicked m
      | .oof => .oof
    | .err e st1 => .err e st1
    | .panicked m => .panicked m
    | .oof => .oof

/-- `cloneMap`: check the visited registry by the map's storage address,
make a fresh empty map sized to the source, register the clone before
the entry loop, then clone each key-value pair. -/
def cloneMap (rc : RecFn) (st : State) (kt vt : Ty) (a : Nat) : Res :=
  match assocFind st.visited a with
  | some w => .ok (some w) st
  | none =>
    match assocFind st.heap a with
    | some (.mapC entries) =>
      let newMap := Val.mapV kt vt st.next
      match cloneMapEntries rc
          { heap := (st.next, .mapC []) :: st.heap, next := st.next + 1,
            visited := (a, newMap) :: st.visited }
          st.next entries with
      | .ok _ st2 => .ok (some newMap) st2
      | .err e st2 => .err e st2
      | .panicked m => .panicked m
      | .oof => .oof
    | _ => .panicked "reflect: invalid map storage"

/-- The field loop of `cloneStruct`: only `CanSet` fields are cloned
and written; a field whose clone comes back as the nil interface is
left at the zero value the fresh struct starts with, as is every
non-settable field. -/
def cloneStructFields (rc : RecFn) : State → List (Bool × Val) → CRes (List (Bool × Val))
  | st, [] => .ok [] st
  | st, (canSet, v) :: rest =>
    if canSet then
      match rc st v with
      | .ok none st1 =>
        match cloneStructFields rc st1 rest with
        | .ok fs st2 => .ok ((canSet, zeroOf v) :: fs) st2
        | .err e st2 => .err e st2
        | .panicked m => .panicked m
        | .oof => .oof
      | .ok (some w) st1 =>
        match cloneStructFields rc st1 rest with
        | .ok fs st2 => .ok ((canSet, w) :: fs) st2
        | .err e st2 => .err e st2
        | .panicked m => .panicked m
        | .oof => .oof
      | .err e st1 => .err e st1
      | .panicked m => .panicked m
      | .oof => .oof
    else
      match cloneStructFields rc st rest with
      | .ok fs st1 => .ok ((canSet, zeroOf v) :: fs) st1
      | .err e st1 => .err e st1
      | .panicked m => .panicked m
      | .oof => .oof

/-- `cloneStruct`: allocate a zero-valued struct of the same type and
fill it field by field. -/
def cloneStruct (rc : RecFn) (st : State) (name : String) (fields : List (Bool × Val)) : Res :=
  match cloneStructFields rc st fields with
  | .ok fs st1 => .ok (some (.structV name fs)) st1
  | .err e st1 => .err e st1
  | .panicked m => .panicked m
  | .oof => .oof

/-- `cloneInterface`: unwrap the dynamic value, clone it, and rewrap
into the same interface type; a nil interface clones to nil before any
recursion, and a clone result that is the nil interface makes the
`Convert` call fault on a zero `reflect.Value`. -/
def cloneInterface (rc : RecFn) (st : State) (inner : Option Val) : Res :=
  match inner with
  | none => .ok none st
  | some u =>
    match rc st u with
    | .ok none _ => .panicked "reflect: Convert of zero Value"
    | .ok (some w) st1 => .ok (some (.ifaceV (some w))) st1
    | .err e st1 => .err e st1
    | .panicked m => .panicked m
    | .oof => .oof

/-- Stages 2 and 3 of the dispatcher: the extension-registry lookup by
the value's reflect type, then the structural switch on its kind, with
channels and functions rejected and scalars copied directly. -/
def deepCloneStep (env : Env) (rc : RecFn) (st : State) (v : Val) : Res :=
  match env.cloners (tyOf v) with
  | some fn => fn rc v st
  | none =>
    match v with
    | .ptrV t a => clonePtr rc st t a
    | .nilPtr _ => .ok none st
    | .sliceV t a => cloneSlice rc st t a
    | .nilSlice _ => .ok none st
    | .arrV t es => cloneArray rc st t es
    | .mapV kt vt a => cloneMap rc st kt vt a
    | .nilMap _ _ => .ok none st
    | .structV n fs => cloneStruct rc st n fs
    | .ifaceV inner => cloneInterface rc st inner
    | .chanV _ => .err (.unclonable "channels cannot be cloned") st
    | .funcV => .err (.unclonable "functions cannot be cloned") st
    | other => .ok (some other) st

/-- `cm.deepClone`, fuel-indexed: stage 1 delegates entirely to a
`Cloneable` dynamic type, passing the engine handle; otherwise the
extension registry and the structural switch run in order.  Running out
of fuel stands for recursion that never returns. -/
def deepClone (env : Env) : Nat → State → Val → Res
  | 0, _, _ => .oof
  | f + 1, st, v =>
    match dynVal v with
    | some u =>
      match env.selfClone (tyOf u) with
      | some fn => fn (deepClone env f) u st
      | none => deepCloneStep env (deepClone env f) st v
    | none => deepCloneStep env (deepClone env f) st v

/-- `cm.Clone`: the public entry point; `reflect.ValueOf` of an absent
input is invalid and clones to nil with no error.  A present input is
passed as its dynamic value, as `reflect.ValueOf` unwraps any
interface. -/
def Clone (env : Env) (fuel : Nat) (st : State) (src : Option Val) : Res :=
  match src with
  | none => .ok none st
  | some v => deepClone env fuel st v

/-- `reflect.Value.IsNil` on the value of the wrapper's input:
defined only for reference-like kinds, a fault (`none`) otherwise. -/
def isNilProbeV : Val → Option Bool
  | .ptrV _ _ => some false
  | .nilPtr _ => some true
  | .sliceV _ _ => some false
  | .nilSlice _ => some true
  | .mapV _ _ _ => some false
  | .nilMap _ _ => some true
  | .chanV _ => some false
  | .funcV => some false
  | _ => none

/-- The generic wrapper `Clone[T]`: it probes `IsNil` on the input
unconditionally, returns the zero value for a nil input, clones, and
type-asserts the result back to `T`, failing with the cast error when
the assertion does not hold. -/
def CloneTyped (env : Env) (fuel : Nat) (st : State) (t : Ty) (src : Option Val) : Res :=
  match src with
  | none => .panicked "reflect: call of reflect.Value.IsNil on zero Value"
  | some v =>
    match isNilProbeV v with
    | none => .panicked "reflect: call of reflect.Value.IsNil on non-nilable Value"
    | some true => .ok (some (zeroOf v)) st
    | some false =>
      match deepClone env fuel st v with
      | .ok (some w) st1 =>
          if tyOf w = t ∨ t = Ty.ifaceT then .ok (some w) st1
          else .err (.castFail "failed to cast cloned value to the original type") st1
      | .ok none st1 => .err (.castFail "failed to cast cloned value to the original type") st1
      | .err e st1 => .err e st1
      | .panicked m => .panicked m
      | .oof => .oof

/-! ## Registry growth invariants -/

/-- Every visited-registry binding of `st` is still present, with the
same clone, in `st'`. -/
def visMono (st st' : State) : Prop :=
  ∀ k w, assocFind st.visited k = some w → assocFind st'.visited k = some w

/-- The state a clone step hands back, when it hands one back. -/
def resState {α : Type} : CRes α → Option State
  | .ok _ st => some st
  | .err _ st => some st
  | .panicked _ => none
  | .oof => none

/-- A clone step only grows the visited registry. -/
def ResPres {α : Type} (r : CRes α) (st : State) : Prop :=
  ∀ st', resState r = some st' → visMono st st'

/-- A user-supplied cloner is well behaved when, given an engine handle
that only grows the registry, it only grows the registry itself — which
is forced in the source, where `visited` is unexported and extension
code can only reach it through the manager. -/
def GoodFn (fn : ClonerFn) : Prop :=
  ∀ rc : RecFn, (∀ st v, ResPres (rc st v) st) → ∀ v st, ResPres (fn rc v st) st

/-- All `Cloneable` implementations and registered cloners of an
environment are well behaved. -/
def GoodEnv (env : Env) : Prop :=
  (∀ ty fn, env.selfClone ty = some fn → GoodFn fn) ∧
  (∀ ty fn, env.cloners ty = some fn → GoodFn fn)

theorem visMono_refl (st : State) : visMono st st := fun _ _ h => h

theorem visMono_trans {s1 s2 s3 : State} (h1 : visMono s1 s2) (h2 : visMono s2 s3) :
    visMono s1 s3 := fun k w h => h2 k w (h1 k w h)

/-- Updating only the heap leaves the registry intact. -/
theorem visMono_of_visited_eq {s1 s2 : State} (h : s2.visited = s1.visited) :
    visMono s1 s2 := fun k w hk => by rw [h]; exact hk

/-- Prepending a binding for a key that was absent keeps all old
bindings reachable. -/
theorem visMono_insert {s1 s2 : State} (a : Nat) (x : Val)
    (hnone : assocFind s1.visited a = none) (h : visMono s1 s2)
    {s3 : State} (h3 : s3.visited = (a, x) :: s2.visited) : visMono s1 s3 := by
  intro k w hk
  rw [h3]
  have hne : a ≠ k := by
    intro he; rw [he] at hnone; rw [hnone] at hk; exact Option.noConfusion hk
  simpa [assocFind, hne] using h k w hk

theorem setArrElem_visited (st : State) (b i : Nat) (w : Val) :
    (setArrElem st b i w).visited = st.visited := by
  unfold setArrElem
  rcases hfind : assocFind st.heap b with _ | c
  · simp
  · cases c <;> simp

theorem goodEnv_empty : GoodEnv emptyEnv := by
  constructor <;> intro ty fn h <;> exact Option.noConfusion h

theorem ResPres_ok {α : Type} (x : α) {st st' : State} (h : visMono st st') :
    ResPres (.ok x st') st := by
  intro s hs; cases hs; exact h

theorem ResPres_err {α : Type} (e : Err) {st st' : State} (h : visMono st st') :
    ResPres (CRes.err e st' : CRes α) st := by
  intro s hs; cases hs; exact h

theorem ResPres_panicked {α : Type} (m : String) (st : State) :
    ResPres (CRes.panicked m : CRes α) st := by
  intro s hs; exact Option.noConfusion hs

theorem ResPres_oof {α : Type} (st : State) : ResPres (CRes.oof : CRes α) st := by
  intro s hs; exact Option.noConfusion hs

/-- A step that preserves from a later state also preserves from any
earlier state below it. -/
theorem ResPres_weaken {α : Type} {r : CRes α} {st st' : State}
    (h : visMono st st') (hp : ResPres r st') : ResPres r st :=
  fun s hs => visMono_trans h (hp s hs)

theorem visMono_of_ok {α : Type} {r : CRes α} {st st1 : State} {x : α}
    (hp : ResPres r st) (h : r = .ok x st1) : visMono st st1 := by
  apply hp; rw [h]; rfl

theorem visMono_of_err {α : Type} {r : CRes α} {st st1 : State} {e : Err}
    (hp : ResPres r st) (h : r = .err e st1) : visMono st st1 := by
  apply hp; rw [h]; rfl

theorem setMapIndex_ok_visited {st : State} {b : Nat} {ck cv : Option Val}
    {u : Unit} {st3 : State} (h : setMapIndex st b ck cv = .ok u st3) :
    st3.visited = st.visited := by
  unfold setMapIndex at h
  rcases ck with _ | k
  · exact CRes.noConfusion h
  · rcases hh : assocFind st.heap b with _ | c
    · rw [hh] at h; cases h; rfl
    · rw [hh] at h
      cases c with
      | refC v => cases h; rfl
      | arrC es => cases h; rfl
      | mapC entries =>
        rcases cv with _ | v
        · cases h; rfl
        · cases h; rfl

theorem clonePtr_pres (rc : RecFn) (hrc : ∀ st v, ResPres (rc st v) st)
    (st : State) (t : Ty) (a : Nat) : ResPres (clonePtr rc st t a) st := by
  cases hv : assocFind st.visited a with
  | some w => simp only [clonePtr, hv]; exact ResPres_ok _ (visMono_refl st)
  | none =>
    cases hh : assocFind st.heap a with
    | none => simp only [clonePtr, hv, hh]; exact ResPres_panicked _ _
    | some c =>
      cases c with
      | arrC es => simp only [clonePtr, hv, hh]; exact ResPres_panicked _ _
      | mapC en => simp only [clonePtr, hv, hh]; exact ResPres_panicked _ _
      | refC pointee =>
        cases hr : rc st pointee with
        | ok r st1 =>
          cases r with
          | none => simp only [clonePtr, hv, hh, hr]; exact ResPres_panicked _ _
          | some w =>
            simp only [clonePtr, hv, hh, hr]
            refine ResPres_ok _ ?_
            exact visMono_insert a (Val.ptrV t st1.next) hv
              (visMono_of_ok (hrc st pointee) hr) rfl
        | err e st1 =>
          simp only [clonePtr, hv, hh, hr]
          exact ResPres_err _ (visMono_of_err (hrc st pointee) hr)
        | panicked m => simp only [clonePtr, hv, hh, hr]; exact ResPres_panicked _ _
        | oof => simp only [clonePtr, hv, hh, hr]; exact ResPres_oof _

theorem cloneSliceElems_pres (rc : RecFn) (hrc : ∀ st v, ResPres (rc st v) st) :
    ∀ (es : List Val) (st : State) (b i : Nat),
      ResPres (cloneSliceElems rc st b i es) st := by
  intro es
  induction es with
  | nil => intro st b i; simp only [cloneSliceElems]; exact ResPres_ok _ (visMono_refl st)
  | cons e rest ih =>
    intro st b i
    cases hr : rc st e with
    | ok r st1 =>
      cases r with
      | none => simp only [cloneSliceElems, hr]; exact ResPres_panicked _ _
      | some w =>
        simp only [cloneSliceElems, hr]
        refine ResPres_weaken ?_ (ih (setArrElem st1 b i w) b (i + 1))
        exact visMono_trans (visMono_of_ok (hrc st e) hr)
          (visMono_of_visited_eq (setArrElem_visited st1 b i w))
    | err er st1 =>
      simp only [cloneSliceElems, hr]
      exact ResPres_err _ (visMono_of_err (hrc st e) hr)
    | panicked m => simp only [cloneSliceElems, hr]; exact ResPres_panicked _ _
    | oof => simp only [cloneSliceElems, hr]; exact ResPres_oof _

theorem cloneArrayElems_pres (rc : RecFn) (hrc : ∀ st v, ResPres (rc st v) st) :
    ∀ (es : List Val) (st : State), ResPres (cloneArrayElems rc st es) st := by
  intro es
  induction es with
  | nil => intro st; simp only [cloneArrayElems]; exact ResPres_ok _ (visMono_refl st)
  | cons e rest ih =>
    intro st
    cases hr : rc st e with
    | ok r st1 =>
      cases r with
      | none => simp only [cloneArrayElems, hr]; exact ResPres_panicked _ _
      | some w =>
        have h1 : visMono st st1 := visMono_of_ok (hrc st e) hr
        cases hrest : cloneArrayElems rc st1 rest with
        | ok ws st2 =>
          simp only [cloneArrayElems, hr, hrest]
          exact ResPres_ok _ (visMono_trans h1 (visMono_of_ok (ih st1) hrest))
        | err er st2 =>
          simp only [cloneArrayElems, hr, hrest]
          exact ResPres_err _ (visMono_trans h1 (visMono_of_err (ih st1) hrest))
        | panicked m => simp only [cloneArrayElems, hr, hrest]; exact ResPres_panicked _ _
        | oof => simp only [cloneArrayElems, hr, hrest]; exact ResPres_oof _
    | err er st1 =>
      simp only [cloneArrayElems, hr]
      exact ResPres_err _ (visMono_of_err (hrc st e) hr)
    | panicked m => simp only [cloneArrayElems, hr]; exact ResPres_panicked _ _
    | oof => simp only [cloneArrayElems, hr]; exact ResPres_oof _

theorem cloneMapEntries_pres (rc : RecFn) (hrc : ∀ st v, ResPres (rc st v) st) :
    ∀ (entries : List (Val × Val)) (st : State) (b : Nat),
      ResPres (cloneMapEntries rc st b entries) st := by
  intro entries
  induction entries with
  | nil => intro st b; simp only [cloneMapEntries]; exact ResPres_ok _ (visMono_refl st)
  | cons kv rest ih =>
    obtain ⟨k, v⟩ := kv
    intro st b
    cases hrk : rc st k with
    | ok ck st1 =>
      have h1 : visMono st st1 := visMono_of_ok (hrc st k) hrk
      cases hrv : rc st1 v with
      | ok cv st2 =>
        have h2 : visMono st st2 := visMono_trans h1 (visMono_of_ok (hrc st1 v) hrv)
        cases hsm : setMapIndex st2 b ck cv with
        | ok u st3 =>
          simp only [cloneMapEntries, hrk, hrv, hsm]
          refine ResPres_weaken ?_ (ih st3 b)
          exact visMono_trans h2 (visMono_of_visited_eq (setMapIndex_ok_visited hsm))
        | err e st3 =>
          exfalso
          unfold setMapIndex at hsm
          rcases ck with _ | ckv
          · exact CRes.noConfusion hsm
          · rcases hh : assocFind st2.heap b with _ | c
            · rw [hh] at hsm; exact CRes.noConfusion hsm
            · rw [hh] at hsm
              cases c with
              | refC w => exact CRes.noConfusion hsm
              | arrC es => exact CRes.noConfusion hsm
              | mapC en =>
                rcases cv with _ | cvv
                · exact CRes.noConfusion hsm
                · exact CRes.noConfusion hsm
        | panicked m => simp only [cloneMapEntries, hrk, hrv, hsm]; exact ResPres_panicked _ _
        | oof =>
          exfalso
          unfold setMapIndex at hsm
          rcases ck with _ | ckv
          · exact CRes.noConfusion hsm
          · rcases hh : assocFind st2.heap b with _ | c
            · rw [hh] at hsm; exact CRes.noConfusion hsm
            · rw [hh] at hsm
              cases c with
              | refC w => exact CRes.noConfusion hsm
              | arrC es => exact CRes.noConfusion hsm
              | mapC en =>
                rcases cv with _ | cvv
                · exact CRes.noConfusion hsm
                · exact CRes.noConfusion hsm
      | err e st2 =>
        simp only [cloneMapEntries, hrk, hrv]
        exact ResPres_err _ (visMono_trans h1 (visMono_of_err (hrc st1 v) hrv))
      | panicked m => simp only [cloneMapEntries, hrk, hrv]; exact ResPres_panicked _ _
      | oof => simp only [cloneMapEntries, hrk, hrv]; exact ResPres_oof _
    | err e st1 =>
      simp only [cloneMapEntries, hrk]
      exact ResPres_err _ (visMono_of_err (hrc st k) hrk)
    | panicked m => simp only [cloneMapEntries, hrk]; exact ResPres_panicked _ _
    | oof => simp only [cloneMapEntries, hrk]; exact ResPres_oof _

theorem cloneStructFields_pres (rc : RecFn) (hrc : ∀ st v, ResPres (rc st v) st) :
    ∀ (fields : List (Bool × Val)) (st : State),
      ResPres (cloneStructFields rc st fields) st := by
  intro fields
  induction fields with
  | nil => intro st; simp only [cloneStructFields]; exact ResPres_ok _ (visMono_refl st)
  | cons f rest ih =>
    obtain ⟨canSet, v⟩ := f
    intro st
    cases canSet with
    | false =>
      cases hrest : cloneStructFields rc st rest with
      | ok fs st1 =>
        simp only [cloneStructFields, hrest]
        exact ResPres_ok _ (visMono_of_ok (ih st) hrest)
      | err e st1 =>
        simp only [cloneStructFields, hrest]
        exact ResPres_err _ (visMono_of_err (ih st) hrest)
      | panicked m => simp only [cloneStructFields, hrest]; exact ResPres_panicked _ _
      | oof => simp only [cloneStructFields, hrest]; exact ResPres_oof _
    | true =>
      cases hr : rc st v with
      | ok r st1 =>
        have h1 : visMono st st1 := visMono_of_ok (hrc st v) hr
        cases r with
        | none =>
          cases hrest : cloneStructFields rc st1 rest with
          | ok fs st2 =>
            simp only [cloneStructFields, hr, hrest]
            exact ResPres_ok _ (visMono_trans h1 (visMono_of_ok (ih st1) hrest))
          | err e st2 =>
            simp only [cloneStructFields, hr, hrest]
            exact ResPres_err _ (visMono_trans h1 (visMono_of_err (ih st1) hrest))
          | panicked m => simp only [cloneStructFields, hr, hrest]; exact ResPres_panicked _ _
          | oof => simp only [cloneStructFields, hr, hrest]; exact ResPres_oof _
        | some w =>
          cases hrest : cloneStructFields rc st1 rest with
          | ok fs st2 =>
            simp only [cloneStructFields, hr, hrest]
            exact ResPres_ok _ (visMono_trans h1 (visMono_of_ok (ih st1) hrest))
          | err e st2 =>
            simp only [cloneStructFields, hr, hrest]
            exact ResPres_err _ (visMono_trans h1 (visMono_of_err (ih st1) hrest))
          | panicked m => simp only [cloneStructFields, hr, hrest]; exact ResPres_panicked _ _
          | oof => simp only [cloneStructFields, hr, hrest]; exact ResPres_oof _
      | err e st1 =>
        simp only [cloneStructFields, hr]
        exact ResPres_err _ (visMono_of_err (hrc st v) hr)
      | panicked m => simp only [cloneStructFields, hr]; exact ResPres_panicked _ _
      | oof => simp only [cloneStructFields, hr]; exact ResPres_oof _

theorem cloneSlice_pres (rc : RecFn) (hrc : ∀ st v, ResPres (rc st v) st)
    (st : State) (t : Ty) (a : Nat) : ResPres (cloneSlice rc st t a) st := by
  cases hv : assocFind st.visited a with
  | some w => simp only [cloneSlice, hv]; exact ResPres_ok _ (visMono_refl st)
  | none =>
    cases hh : assocFind st.heap a with
    | none => simp only [cloneSlice, hv, hh]; exact ResPres_panicked _ _
    | some c =>
      cases c with
      | refC w => simp only [cloneSlice, hv, hh]; exact ResPres_panicked _ _
      | mapC en => simp only [cloneSlice, hv, hh]; exact ResPres_panicked _ _
      | arrC elems =>
        have hins : visMono st
            { heap := (st.next, Cell.arrC (zeroOfList elems)) :: st.heap, next := st.next + 1,
              visited := (a, Val.sliceV t st.next) :: st.visited } :=
          visMono_insert a (Val.sliceV t st.next) hv (visMono_refl st) rfl
        have hloop := cloneSliceElems_pres rc hrc elems
          { heap := (st.next, Cell.arrC (zeroOfList elems)) :: st.heap, next := st.next + 1,
            visited := (a, Val.sliceV t st.next) :: st.visited } st.next 0
        cases hl : cloneSliceElems rc
            { heap := (st.next, Cell.arrC (zeroOfList elems)) :: st.heap, next := st.next + 1,
              visited := (a, Val.sliceV t st.next) :: st.visited } st.next 0 elems with
        | ok u st2 =>
          simp only [cloneSlice, hv, hh, hl]
          exact ResPres_ok _ (visMono_trans hins (visMono_of_ok hloop hl))
        | err e st2 =>
          simp only [cloneSlice, hv, hh, hl]
          exact ResPres_err _ (visMono_trans hins (visMono_of_err hloop hl))
        | panicked m => simp only [cloneSlice, hv, hh, hl]; exact ResPres_panicked _ _
        | oof => simp only [cloneSlice, hv, hh, hl]; exact ResPres_oof _

theorem cloneMap_pres (rc : RecFn) (hrc : ∀ st v, ResPres (rc st v) st)
    (st : State) (kt vt : Ty) (a : Nat) : ResPres (cloneMap rc st kt vt a) st := by
  cases hv : assocFind st.visited a with
  | some w => simp only [cloneMap, hv]; exact ResPres_ok _ (visMono_refl st)
  | none =>
    cases hh : assocFind st.heap a with
    | none => simp only [cloneMap, hv, hh]; exact ResPres_panicked _ _
    | some c =>
      cases c with
      | refC w => simp only [cloneMap, hv, hh]; exact ResPres_panicked _ _
      | arrC es => simp only [cloneMap, hv, hh]; exact ResPres_panicked _ _
      | mapC entries =>
        have hins : visMono st
            { heap := (st.next, Cell.mapC []) :: st.heap, next := st.next + 1,
              visited := (a, Val.mapV kt vt st.next) :: st.visited } :=
          visMono_insert a (Val.mapV kt vt st.next) hv (visMono_refl st) rfl
        have hloop := cloneMapEntries_pres rc hrc entries
          { heap := (st.next, Cell.mapC []) :: st.heap, next := st.next + 1,
            visited := (a, Val.mapV kt vt st.next) :: st.visited } st.next
        cases hl : cloneMapEntries rc
            { heap := (st.next, Cell.mapC []) :: st.heap, next := st.next + 1,
              visited := (a, Val.mapV kt vt st.next) :: st.visited } st.next entries with
        | ok u st2 =>
          simp only [cloneMap, hv, hh, hl]
          exact ResPres_ok _ (visMono_trans hins (visMono_of_ok hloop hl))
        | err e st2 =>
          simp only [cloneMap, hv, hh, hl]
          exact ResPres_err _ (visMono_trans hins (visMono_of_err hloop hl))
        | panicked m => simp only [cloneMap, hv, hh, hl]; exact ResPres_panicked _ _
        | oof => simp only [cloneMap, hv, hh, hl]; exact ResPres_oof _

theorem cloneArray_pres (rc : RecFn) (hrc : ∀ st v, ResPres (rc st v) st)
    (st : State) (t : Ty) (elems : List Val) : ResPres (cloneArray rc st t elems) st := by
  cases hl : cloneArrayElems rc st elems with
  | ok ws st1 =>
    simp only [cloneArray, hl]
    exact ResPres_ok _ (visMono_of_ok (cloneArrayElems_pres rc hrc elems st) hl)
  | err e st1 =>
    simp only [cloneArray, hl]
    exact ResPres_err _ (visMono_of_err (cloneArrayElems_pres rc hrc elems st) hl)
  | panicked m => simp only [cloneArray, hl]; exact ResPres_panicked _ _
  | oof => simp only [cloneArray, hl]; exact ResPres_oof _

theorem cloneStruct_pres (rc : RecFn) (hrc : ∀ st v, ResPres (rc st v) st)
    (st : State) (n : String) (fields : List (Bool × Val)) :
    ResPres (cloneStruct rc st n fields) st := by
  cases hl : cloneStructFields rc st fields with
  | ok fs st1 =>
    simp only [cloneStruct, hl]
    exact ResPres_ok _ (visMono_of_ok (cloneStructFields_pres rc hrc fields st) hl)
  | err e st1 =>
    simp only [cloneStruct, hl]
    exact ResPres_err _ (visMono_of_err (cloneStructFields_pres rc hrc fields st) hl)
  | panicked m => simp only [cloneStruct, hl]; exact ResPres_panicked _ _
  | oof => simp only [cloneStruct, hl]; exact ResPres_oof _

theorem cloneInterface_pres (rc : RecFn) (hrc : ∀ st v, ResPres (rc st v) st)
    (st : State) (inner : Option Val) : ResPres (cloneInterface rc st inner) st := by
  cases inner with
  | none => simp only [cloneInterface]; exact ResPres_ok _ (visMono_refl st)
  | some u =>
    cases hr : rc st u with
    | ok r st1 =>
      cases r with
      | none => simp only [cloneInterface, hr]; exact ResPres_panicked _ _
      | some w =>
        simp only [cloneInterface, hr]
        exact ResPres_ok _ (visMono_of_ok (hrc st u) hr)
    | err e st1 =>
      simp only [cloneInterface, hr]
      exact ResPres_err _ (visMono_of_err (hrc st u) hr)
    | panicked m => simp only [cloneInterface, hr]; exact ResPres_panicked _ _
    | oof => simp only [cloneInterface, hr]; exact ResPres_oof _

theorem deepCloneStep_pres (env : Env) (hg : GoodEnv env) (rc : RecFn)
    (hrc : ∀ st v, ResPres (rc st v) st) (st : State) (v : Val) :
    ResPres (deepCloneStep env rc st v) st := by
  cases hc : env.cloners (tyOf v) with
  | some fn =>
    simp only [deepCloneStep, hc]
    exact hg.2 (tyOf v) fn hc rc hrc v st
  | none =>
    simp only [deepCloneStep, hc]
    cases v with
    | ptrV t a => exact clonePtr_pres rc hrc st t a
    | nilPtr t => exact ResPres_ok _ (visMono_refl st)
    | sliceV t a => exact cloneSlice_pres rc hrc st t a
    | nilSlice t => exact ResPres_ok _ (visMono_refl st)
    | arrV t es => exact cloneArray_pres rc hrc st t es
    | mapV kt vt a => exact cloneMap_pres rc hrc st kt vt a
    | nilMap kt vt => exact ResPres_ok _ (visMono_refl st)
    | structV n fs => exact cloneStruct_pres rc hrc st n fs
    | ifaceV inner => exact cloneInterface_pres rc hrc st inner
    | chanV t => exact ResPres_err _ (visMono_refl st)
    | funcV => exact ResPres_err _ (visMono_refl st)
    | intV n => exact ResPres_ok _ (visMono_refl st)
    | strV s => exact ResPres_ok _ (visMono_refl st)
    | boolV b => exact ResPres_ok _ (visMono_refl st)

/-- The dispatcher, at any fuel, only grows the visited registry of the
manager it runs in, for every value and every well-behaved environment. -/
theorem deepClone_pres (env : Env) (hg : GoodEnv env) :
    ∀ (f : Nat) (st : State) (v : Val), ResPres (deepClone env f st v) st := by
  intro f
  induction f with
  | zero => intro st v; exact ResPres_oof _
  | succ f ih =>
    intro st v
    cases hd : dynVal v with
    | none => simp only [deepClone, hd]; exact deepCloneStep_pres env hg _ ih st v
    | some u =>
      cases hs : env.selfClone (tyOf u) with
      | some fn =>
        simp only [deepClone, hd, hs]
        exact hg.1 (tyOf u) fn hs _ ih u st
      | none =>
        simp only [deepClone, hd, hs]
        exact deepCloneStep_pres env hg _ ih st v

/-! ## Dispatch and registration lemmas -/

theorem deepClone_ptr_eq {env : Env} {f : Nat} {st : State} {t : Ty} {a : Nat}
    (hs : env.selfClone (.ptrT t) = none) (hc : env.cloners (.ptrT t) = none) :
    deepClone env (f + 1) st (.ptrV t a) = clonePtr (deepClone env f) st t a := by
  simp only [deepClone, dynVal, tyOf, hs, deepCloneStep, hc]

theorem deepClone_nilPtr_eq {env : Env} {f : Nat} {st : State} {t : Ty}
    (hs : env.selfClone (.ptrT t) = none) (hc : env.cloners (.ptrT t) = none) :
    deepClone env (f + 1) st (.nilPtr t) = .ok none st := by
  simp only [deepClone, dynVal, tyOf, hs, deepCloneStep, hc]

theorem deepClone_slice_eq {env : Env} {f : Nat} {st : State} {t : Ty} {a : Nat}
    (hs : env.selfClone (.sliceT t) = none) (hc : env.cloners (.sliceT t) = none) :
    deepClone env (f + 1) st (.sliceV t a) = cloneSlice (deepClone env f) st t a := by
  simp only [deepClone, dynVal, tyOf, hs, deepCloneStep, hc]

theorem deepClone_nilSlice_eq {env : Env} {f : Nat} {st : State} {t : Ty}
    (hs : env.selfClone (.sliceT t) = none) (hc : env.cloners (.sliceT t) = none) :
    deepClone env (f + 1) st (.nilSlice t) = .ok none st := by
  simp only [deepClone, dynVal, tyOf, hs, deepCloneStep, hc]

theorem deepClone_nilMap_eq {env : Env} {f : Nat} {st : State} {kt vt : Ty}
    (hs : env.selfClone (.mapT kt vt) = none) (hc : env.cloners (.mapT kt vt) = none) :
    deepClone env (f + 1) st (.nilMap kt vt) = .ok none st := by
  simp only [deepClone, dynVal, tyOf, hs, deepCloneStep, hc]

theorem deepClone_nilIface_eq {env : Env} {f : Nat} {st : State}
    (hc : env.cloners .ifaceT = none) :
    deepClone env (f + 1) st (.ifaceV none) = .ok none st := by
  simp only [deepClone, dynVal, deepCloneStep, tyOf, hc, cloneInterface]

theorem deepClone_chan_eq {env : Env} {f : Nat} {st : State} {t : Ty}
    (hs : env.selfClone (.chanT t) = none) (hc : env.cloners (.chanT t) = none) :
    deepClone env (f + 1) st (.chanV t) =
      .err (.unclonable "channels cannot be cloned") st := by
  simp only [deepClone, dynVal, tyOf, hs, deepCloneStep, hc]

theorem deepClone_func_eq {env : Env} {f : Nat} {st : State}
    (hs : env.selfClone .funcT = none) (hc : env.cloners .funcT = none) :
    deepClone env (f + 1) st .funcV =
      .err (.unclonable "functions cannot be cloned") st := by
  simp only [deepClone, dynVal, tyOf, hs, deepCloneStep, hc]

theorem deepClone_struct_eq {env : Env} {f : Nat} {st : State} {n : String}
    {fs : List (Bool × Val)}
    (hs : env.selfClone (.structT n) = none) (hc : env.cloners (.structT n) = none) :
    deepClone env (f + 1) st (.structV n fs) =
      cloneStruct (deepClone env f) st n fs := by
  simp only [deepClone, dynVal, tyOf, hs, deepCloneStep, hc]

theorem clonePtr_hit {rc : RecFn} {st : State} {t : Ty} {a : Nat} {w : Val}
    (h : assocFind st.visited a = some w) : clonePtr rc st t a = .ok (some w) st := by
  simp only [clonePtr, h]

theorem cloneSlice_hit {rc : RecFn} {st : State} {t : Ty} {a : Nat} {w : Val}
    (h : assocFind st.visited a = some w) : cloneSlice rc st t a = .ok (some w) st := by
  simp only [cloneSlice, h]

theorem cloneMap_hit {rc : RecFn} {st : State} {kt vt : Ty} {a : Nat} {w : Val}
    (h : assocFind st.visited a = some w) : cloneMap rc st kt vt a = .ok (some w) st := by
  simp only [cloneMap, h]

/-- A successful `clonePtr` always leaves the registry holding exactly
the clone it returned, keyed by the source identity. -/
theorem clonePtr_reg {rc : RecFn} {st : State} {t : Ty} {a : Nat}
    {r : Option Val} {st' : State} (h : clonePtr rc st t a = .ok r st') :
    ∃ w, r = some w ∧ assocFind st'.visited a = some w := by
  cases hv : assocFind st.visited a with
  | some w =>
    simp only [clonePtr, hv] at h
    cases h
    exact ⟨w, rfl, hv⟩
  | none =>
    cases hh : assocFind st.heap a with
    | none => simp only [clonePtr, hv, hh] at h; exact CRes.noConfusion h
    | some c =>
      cases c with
      | arrC es => simp only [clonePtr, hv, hh] at h; exact CRes.noConfusion h
      | mapC en => simp only [clonePtr, hv, hh] at h; exact CRes.noConfusion h
      | refC pointee =>
        cases hr : rc st pointee with
        | ok cr st1 =>
          cases cr with
          | none =>
            simp only [clonePtr, hv, hh, hr] at h
            exact CRes.noConfusion h
          | some w =>
            have heq : clonePtr rc st t a = CRes.ok (some (Val.ptrV t st1.next))
                { heap := (st1.next, Cell.refC w) :: st1.heap, next := st1.next + 1,
                  visited := (a, Val.ptrV t st1.next) :: st1.visited } := by
              simp only [clonePtr, hv, hh, hr]
            rw [heq] at h
            cases h
            exact ⟨Val.ptrV t st1.next, rfl, by simp [assocFind]⟩
        | err e st1 => simp only [clonePtr, hv, hh, hr] at h; exact CRes.noConfusion h
        | panicked m => simp only [clonePtr, hv, hh, hr] at h; exact CRes.noConfusion h
        | oof => simp only [clonePtr, hv, hh, hr] at h; exact CRes.noConfusion h

/-- A successful `cloneSlice` likewise returns exactly the clone the
registry holds for the backing-storage identity: the entry is created
before the element loop and survives it. -/
theorem cloneSlice_reg {rc : RecFn} (hrc : ∀ st v, ResPres (rc st v) st)
    {st : State} {t : Ty} {a : Nat} {r : Option Val} {st' : State}
    (h : cloneSlice rc st t a = .ok r st') :
    ∃ w, r = some w ∧ assocFind st'.visited a = some w := by
  cases hv : assocFind st.visited a with
  | some w =>
    simp only [cloneSlice, hv] at h
    cases h
    exact ⟨w, rfl, hv⟩
  | none =>
    cases hh : assocFind st.heap a with
    | none => simp only [cloneSlice, hv, hh] at h; exact CRes.noConfusion h
    | some c =>
      cases c with
      | refC w => simp only [cloneSlice, hv, hh] at h; exact CRes.noConfusion h
      | mapC en => simp only [cloneSlice, hv, hh] at h; exact CRes.noConfusion h
      | arrC elems =>
        cases hl : cloneSliceElems rc
            { heap := (st.next, Cell.arrC (zeroOfList elems)) :: st.heap, next := st.next + 1,
              visited := (a, Val.sliceV t st.next) :: st.visited } st.next 0 elems with
        | ok u st2 =>
          have heq : cloneSlice rc st t a = CRes.ok (some (Val.sliceV t st.next)) st2 := by
            simp only [cloneSlice, hv, hh, hl]
          rw [heq] at h
          cases h
          refine ⟨Val.sliceV t st.next, rfl, ?_⟩
          have hstart : assocFind ((a, Val.sliceV t st.next) :: st.visited) a
              = some (Val.sliceV t st.next) := by simp [assocFind]
          exact visMono_of_ok (cloneSliceElems_pres rc hrc elems _ st.next 0) hl a _ hstart
        | err e st2 => simp only [cloneSlice, hv, hh, hl] at h; exact CRes.noConfusion h
        | panicked m => simp only [cloneSlice, hv, hh, hl] at h; exact CRes.noConfusion h
        | oof => simp only [cloneSlice, hv, hh, hl] at h; exact CRes.noConfusion h

/-! ## Error propagation and field lemmas -/

/-- The slice element loop processes an appended list as the first part
followed, on success, by the second. -/
theorem cloneSliceElems_append (rc : RecFn) :
    ∀ (pre rest : List Val) (st : State) (b i : Nat),
      cloneSliceElems rc st b i (pre ++ rest) =
        match cloneSliceElems rc st b i pre with
        | .ok _ st' => cloneSliceElems rc st' b (i + pre.length) rest
        | .err e st' => .err e st'
        | .panicked m => .panicked m
        | .oof => .oof := by
  intro pre
  induction pre with
  | nil =>
    intro rest st b i
    simp only [List.nil_append, cloneSliceElems, List.length_nil, Nat.add_zero]
  | cons e pre ih =>
    intro rest st b i
    cases hr : rc st e with
    | ok r st1 =>
      cases r with
      | none => simp only [List.cons_append, cloneSliceElems, hr]
      | some w =>
        simp only [List.cons_append, cloneSliceElems, hr, List.length_cons, List.append_eq]
        rw [ih]
        have harith : i + 1 + pre.length = i + (pre.length + 1) := by omega
        rw [harith]
    | err er st1 => simp only [List.cons_append, cloneSliceElems, hr]
    | panicked m => simp only [List.cons_append, cloneSliceElems, hr]
    | oof => simp only [List.cons_append, cloneSliceElems, hr]

/-- The map entry loop processes an appended list as the first part
followed, on success, by the second. -/
theorem cloneMapEntries_append (rc : RecFn) :
    ∀ (pre rest : List (Val × Val)) (st : State) (b : Nat),
      cloneMapEntries rc st b (pre ++ rest) =
        match cloneMapEntries rc st b pre with
        | .ok _ st' => cloneMapEntries rc st' b rest
        | .err e st' => .err e st'
        | .panicked m => .panicked m
        | .oof => .oof := by
  intro pre
  induction pre with
  | nil => intro rest st b; simp only [List.nil_append, cloneMapEntries]
  | cons kv pre ih =>
    obtain ⟨k, v⟩ := kv
    intro rest st b
    cases hrk : rc st k with
    | ok ck st1 =>
      cases hrv : rc st1 v with
      | ok cv st2 =>
        cases hsm : setMapIndex st2 b ck cv with
        | ok u st3 =>
          simp only [List.cons_append, cloneMapEntries, hrk, hrv, hsm]
          exact ih rest st3 b
        | err e st3 => simp only [List.cons_append, cloneMapEntries, hrk, hrv, hsm]
        | panicked m => simp only [List.cons_append, cloneMapEntries, hrk, hrv, hsm]
        | oof => simp only [List.cons_append, cloneMapEntries, hrk, hrv, hsm]
      | err e st2 => simp only [List.cons_append, cloneMapEntries, hrk, hrv]
      | panicked m => simp only [List.cons_append, cloneMapEntries, hrk, hrv]
      | oof => simp only [List.cons_append, cloneMapEntries, hrk, hrv]
    | err e st1 => simp only [List.cons_append, cloneMapEntries, hrk]
    | panicked m => simp only [List.cons_append, cloneMapEntries, hrk]
    | oof => simp only [List.cons_append, cloneMapEntries, hrk]

/-- Fields the engine cannot set come out of the field loop at the zero
value of their type. -/
theorem cloneStructFields_unsettable (rc : RecFn) :
    ∀ (fields : List (Bool × Val)) (st : State) (out : List (Bool × Val)) (st' : State),
      cloneStructFields rc st fields = .ok out st' →
      ∀ (i : Nat) (v : Val), fields[i]? = some (false, v) → out[i]? = some (false, zeroOf v) := by
  intro fields
  induction fields with
  | nil =>
    intro st out st' h i v hi
    simp at hi
  | cons fld rest ih =>
    obtain ⟨canSet, v0⟩ := fld
    intro st out st' h i v hi
    cases canSet with
    | false =>
      cases hrest : cloneStructFields rc st rest with
      | ok fs st1 =>
        simp only [cloneStructFields, hrest] at h
        cases h
        cases i with
        | zero =>
          simp only [List.getElem?_cons_zero, Option.some.injEq, Prod.mk.injEq] at hi
          simp [List.getElem?_cons_zero, hi.2]
        | succ j =>
          simp only [List.getElem?_cons_succ] at hi ⊢
          exact ih _ _ _ hrest j v hi
      | err e st1 => simp only [cloneStructFields, hrest] at h; exact CRes.noConfusion h
      | panicked m => simp only [cloneStructFields, hrest] at h; exact CRes.noConfusion h
      | oof => simp only [cloneStructFields, hrest] at h; exact CRes.noConfusion h
    | true =>
      cases hr : rc st v0 with
      | ok r st1 =>
        cases r with
        | none =>
          cases hrest : cloneStructFields rc st1 rest with
          | ok fs st2 =>
            simp only [cloneStructFields, hr, hrest] at h
            cases h
            cases i with
            | zero => simp at hi
            | succ j =>
              simp only [List.getElem?_cons_succ] at hi ⊢
              exact ih _ _ _ hrest j v hi
          | err e st2 => simp only [cloneStructFields, hr, hrest] at h; exact CRes.noConfusion h
          | panicked m => simp only [cloneStructFields, hr, hrest] at h; exact CRes.noConfusion h
          | oof => simp only [cloneStructFields, hr, hrest] at h; exact CRes.noConfusion h
        | some w =>
          cases hrest : cloneStructFields rc st1 rest with
          | ok fs st2 =>
            simp only [cloneStructFields, hr, hrest] at h
            cases h
            cases i with
            | zero => simp at hi
            | succ j =>
              simp only [List.getElem?_cons_succ] at hi ⊢
              exact ih _ _ _ hrest j v hi
          | err e st2 => simp only [cloneStructFields, hr, hrest] at h; exact CRes.noConfusion h
          | panicked m => simp only [cloneStructFields, hr, hrest] at h; exact CRes.noConfusion h
          | oof => simp only [cloneStructFields, hr, hrest] at h; exact CRes.noConfusion h
      | err e st1 => simp only [cloneStructFields, hr] at h; exact CRes.noConfusion h
      | panicked m => simp only [cloneStructFields, hr] at h; exact CRes.noConfusion h
      | oof => simp only [cloneStructFields, hr] at h; exact CRes.noConfusion h

/-! ## Concrete scenarios -/

/-- A directly self-referential structure: a `Node` whose settable
pointer field points back at the node itself. -/
def selfRefState : State :=
  NewCloneManager [(0, .refC (.structV "Node" [(true, .ptrV (.structT "Node") 0)]))] 1

/-- Cloning the self-referential pointer never returns, whatever the
fuel: the visited entry for identity 0 is only written after the
recursion into the referent, so the registry probe never hits. -/
theorem selfRef_diverges_aux : ∀ f : Nat,
    deepClone emptyEnv f selfRefState (.ptrV (.structT "Node") 0) = .oof ∧
    deepClone emptyEnv f selfRefState
      (.structV "Node" [(true, .ptrV (.structT "Node") 0)]) = .oof := by
  intro f
  induction f with
  | zero => exact ⟨rfl, rfl⟩
  | succ f ih =>
    obtain ⟨ih1, ih2⟩ := ih
    simp only [selfRefState, NewCloneManager] at ih1 ih2
    constructor
    · rw [deepClone_ptr_eq rfl rfl]
      simp [clonePtr, selfRefState, NewCloneManager, assocFind, ih2]
    · rw [deepClone_struct_eq rfl rfl]
      simp [cloneStruct, cloneStructFields, selfRefState, NewCloneManager, ih1]

/-- The aliased slice of §8 scenario 4: a backing array whose first and
third elements are the identical pointer to 300, the second a pointer
to 400. -/
def aliasState : State :=
  NewCloneManager
    [(10, .refC (.intV 300)), (11, .refC (.intV 400)),
     (12, .arrC [.ptrV .intT 10, .ptrV .intT 11, .ptrV .intT 10])] 13

/-- The state after cloning the aliased slice. -/
def aliasFinal : State :=
  { heap := [(15, .refC (.intV 400)), (14, .refC (.intV 300)),
             (13, .arrC [.ptrV .intT 14, .ptrV .intT 15, .ptrV .intT 14]),
             (10, .refC (.intV 300)), (11, .refC (.intV 400)),
             (12, .arrC [.ptrV .intT 10, .ptrV .intT 11, .ptrV .intT 10])],
    next := 16,
    visited := [(11, .ptrV .intT 15), (10, .ptrV .intT 14),
                (12, .sliceV (.ptrT .intT) 13)] }

/-- A map whose single entry holds a nil pointer value. -/
def nilValMapState : State :=
  NewCloneManager [(0, .mapC [(.strV "a", .nilPtr .intT)])] 1

/-- An extension cloner for struct type `T` that replaces the contents
with the marker 99, ignoring the engine handle. -/
def markerCloner : ClonerFn := fun _ _ st => .ok (some (.structV "T" [(true, .intV 99)])) st

/-- An environment whose only registration is `markerCloner` for the
exact type `T`. -/
def envT : Env :=
  { selfClone := fun _ => none,
    cloners := fun ty => if ty = Ty.structT "T" then some markerCloner else none }

/-- A slice of two `T` values with distinct contents. -/
def nestedState : State :=
  NewCloneManager
    [(20, .arrC [.structV "T" [(true, .intV 1)], .structV "T" [(true, .intV 2)]])] 21

/-- A slice whose only element is a channel value. -/
def chanSliceState : State := NewCloneManager [(30, .arrC [.chanV .intT])] 31

/-- A world holding one pointer to the integer 5. -/
def ptrIntState : State := NewCloneManager [(0, .refC (.intV 5))] 1

/-! ## Claims -/

/-- C1: the claim that every reference-typed composite cloner creates
its visited-registry entry before recursing does not hold of the code:
`clonePtr` registers only after the recursive clone of the referent
returns, so cloning a directly self-referential pointer structure
recurses without bound — here, for every fuel bound the engine fails to
terminate on a `Node` whose pointer field points back at itself. -/
theorem C1_selfref_ptr_diverges :
    ∀ fuel : Nat,
      deepClone emptyEnv fuel selfRefState (.ptrV (.structT "Node") 0) = .oof :=
  fun fuel => (selfRef_diverges_aux fuel).1

/-- C2: aliasing preservation.  (1) A pointer whose identity is already
registered clones to the registered clone with no recursion and no
state change; (2) a successful pointer clone always leaves the registry
mapping the source identity to exactly the returned clone, so any later
occurrence of the same pointer yields the identical clone; (3)/(4) the
same two facts for slices keyed by backing-storage identity; (5) the
registry only grows across a clone, so registered identities keep their
clones for the rest of the traversal; (6) the spec scenario: cloning a
slice of pointers with elements 0 and 2 sharing identity yields clone
elements 0 and 2 sharing the fresh identity 14, element 1 the distinct
identity 15, with values 300/400/300. -/
theorem C2_aliasing_preserved :
    (∀ (env : Env) (f : Nat) (st : State) (t : Ty) (a : Nat) (w : Val),
       env.selfClone (.ptrT t) = none → env.cloners (.ptrT t) = none →
       assocFind st.visited a = some w →
       deepClone env (f + 1) st (.ptrV t a) = .ok (some w) st) ∧
    (∀ (env : Env) (f : Nat) (st : State) (t : Ty) (a : Nat) (r : Option Val) (st' : State),
       env.selfClone (.ptrT t) = none → env.cloners (.ptrT t) = none →
       deepClone env (f + 1) st (.ptrV t a) = .ok r st' →
       ∃ w, r = some w ∧ assocFind st'.visited a = some w) ∧
    (∀ (env : Env) (f : Nat) (st : State) (t : Ty) (a : Nat) (w : Val),
       env.selfClone (.sliceT t) = none → env.cloners (.sliceT t) = none →
       assocFind st.visited a = some w →
       deepClone env (f + 1) st (.sliceV t a) = .ok (some w) st) ∧
    (∀ (env : Env) (f : Nat) (st : State) (t : Ty) (a : Nat) (r : Option Val) (st' : State),
       GoodEnv env →
       env.selfClone (.sliceT t) = none → env.cloners (.sliceT t) = none →
       deepClone env (f + 1) st (.sliceV t a) = .ok r st' →
       ∃ w, r = some w ∧ assocFind st'.visited a = some w) ∧
    (∀ (env : Env) (f : Nat) (st : State) (v : Val) (r : Option Val) (st' : State),
       GoodEnv env → deepClone env f st v = .ok r st' → visMono st st') ∧
    (deepClone emptyEnv 9 aliasState (.sliceV (.ptrT .intT) 12)
        = .ok (some (.sliceV (.ptrT .intT) 13)) aliasFinal ∧
     assocFind aliasFinal.heap 13
        = some (.arrC [.ptrV .intT 14, .ptrV .intT 15, .ptrV .intT 14]) ∧
     (14 : Nat) ≠ 15 ∧
     assocFind aliasFinal.heap 14 = some (.refC (.intV 300)) ∧
     assocFind aliasFinal.heap 15 = some (.refC (.intV 400))) := by
  refine ⟨?_, ?_, ?_, ?_, ?_, ?_⟩
  · intro env f st t a w hs hc h
    rw [deepClone_ptr_eq hs hc]
    exact clonePtr_hit h
  · intro env f st t a r st' hs hc h
    rw [deepClone_ptr_eq hs hc] at h
    exact clonePtr_reg h
  · intro env f st t a w hs hc h
    rw [deepClone_slice_eq hs hc]
    exact cloneSlice_hit h
  · intro env f st t a r st' hg hs hc h
    rw [deepClone_slice_eq hs hc] at h
    exact cloneSlice_reg (fun st v => deepClone_pres env hg f st v) h
  · intro env f st v r st' hg h
    exact visMono_of_ok (deepClone_pres env hg f st v) h
  · exact ⟨by rfl, by rfl, by decide, by rfl, by rfl⟩

/-- Witness for C2: the hit case applied at a registry holding identity
5, and the growth case at the slice scenario. -/
theorem C2_witness :
    deepClone emptyEnv 1
        { heap := [], next := 0, visited := [(5, Val.ptrV .intT 9)] } (.ptrV .intT 5)
      = .ok (some (.ptrV .intT 9))
        { heap := [], next := 0, visited := [(5, Val.ptrV .intT 9)] } :=
  C2_aliasing_preserved.1 emptyEnv 0
    { heap := [], next := 0, visited := [(5, Val.ptrV .intT 9)] } .intT 5
    (Val.ptrV .intT 9) rfl rfl rfl

/-- C3: the claim that cloning an acyclic value built from scalars,
pointers, slices, arrays, maps, structs and interfaces returns a value
observably equal to the input fails on the code for a map holding a nil
pointer value: the nil clones to the nil interface, whose zero
`reflect.Value` makes `SetMapIndex` delete the key, so the clone is an
empty map while the source has one entry. -/
theorem C3_nil_map_entry_dropped :
    deepClone emptyEnv 5 nilValMapState (.mapV .strT (.ptrT .intT) 0)
      = .ok (some (.mapV .strT (.ptrT .intT) 1))
        { heap := [(1, .mapC []), (0, .mapC [(.strV "a", .nilPtr .intT)])],
          next := 2,
          visited := [(0, .mapV .strT (.ptrT .intT) 1)] } ∧
    assocFind nilValMapState.heap 0 = some (.mapC [(.strV "a", .nilPtr .intT)]) ∧
    ([] : List (Val × Val)) ≠ [(.strV "a", .nilPtr .intT)] := by
  refine ⟨by rfl, by rfl, ?_⟩
  intro h
  exact List.noConfusion h

/-- C4: the claim that the typed wrapper probes absence only for
reference-like static types fails on the code: `Clone[T]` calls
`reflect.ValueOf(src).IsNil()` unconditionally, which faults at runtime
for an `int` input (and for a struct value input) instead of returning
the clone. -/
theorem C4_typed_wrapper_probe_faults :
    (∀ (env : Env) (f : Nat) (st : State),
       CloneTyped env f st .intT (some (.intV 42))
         = .panicked "reflect: call of reflect.Value.IsNil on non-nilable Value") ∧
    (∀ (env : Env) (f : Nat) (st : State) (n : String),
       CloneTyped env f st (.structT n) (some (.structV n [(true, .intV 1)]))
         = .panicked "reflect: call of reflect.Value.IsNil on non-nilable Value") :=
  ⟨fun _ _ _ => rfl, fun _ _ _ _ => rfl⟩

/-- C5: an absent reference, dynamic sequence, mapping or polymorphic
container clones to absent with no error and with the state — registry
and allocator included — exactly unchanged, provided no extension hooks
claim its type; an absent top-level input likewise. -/
theorem C5_nil_clones_to_nil :
    ∀ (env : Env) (f : Nat) (st : State) (t kt vt : Ty),
      (env.selfClone (.ptrT t) = none → env.cloners (.ptrT t) = none →
         deepClone env (f + 1) st (.nilPtr t) = .ok none st) ∧
      (env.selfClone (.sliceT t) = none → env.cloners (.sliceT t) = none →
         deepClone env (f + 1) st (.nilSlice t) = .ok none st) ∧
      (env.selfClone (.mapT kt vt) = none → env.cloners (.mapT kt vt) = none →
         deepClone env (f + 1) st (.nilMap kt vt) = .ok none st) ∧
      (env.cloners .ifaceT = none →
         deepClone env (f + 1) st (.ifaceV none) = .ok none st) ∧
      Clone env f st none = .ok none st := by
  intro env f st t kt vt
  exact ⟨fun hs hc => deepClone_nilPtr_eq hs hc,
         fun hs hc => deepClone_nilSlice_eq hs hc,
         fun hs hc => deepClone_nilMap_eq hs hc,
         fun hc => deepClone_nilIface_eq hc,
         rfl⟩

/-- Witness for C5: all five conjuncts discharged in the empty
environment over an empty world. -/
theorem C5_witness :
    deepClone emptyEnv 1 (NewCloneManager [] 0) (.nilPtr .intT)
        = .ok none (NewCloneManager [] 0) ∧
    deepClone emptyEnv 1 (NewCloneManager [] 0) (.nilSlice .intT)
        = .ok none (NewCloneManager [] 0) ∧
    deepClone emptyEnv 1 (NewCloneManager [] 0) (.nilMap .strT .intT)
        = .ok none (NewCloneManager [] 0) ∧
    deepClone emptyEnv 1 (NewCloneManager [] 0) (.ifaceV none)
        = .ok none (NewCloneManager [] 0) ∧
    Clone emptyEnv 0 (NewCloneManager [] 0) none = .ok none (NewCloneManager [] 0) :=
  ⟨(C5_nil_clones_to_nil emptyEnv 0 (NewCloneManager [] 0) .intT .strT .intT).1 rfl rfl,
   (C5_nil_clones_to_nil emptyEnv 0 (NewCloneManager [] 0) .intT .strT .intT).2.1 rfl rfl,
   (C5_nil_clones_to_nil emptyEnv 0 (NewCloneManager [] 0) .intT .strT .intT).2.2.1 rfl rfl,
   (C5_nil_clones_to_nil emptyEnv 0 (NewCloneManager [] 0) .intT .strT .intT).2.2.2.1 rfl,
   (C5_nil_clones_to_nil emptyEnv 0 (NewCloneManager [] 0) .intT .strT .intT).2.2.2.2⟩

/-- C6: a channel or function value makes the dispatcher fail with the
unclonable-kind error naming the offending kind, returning no clone
value and leaving the state untouched, provided no extension hooks
claim the type. -/
theorem C6_unclonable_kinds_fail :
    ∀ (env : Env) (f : Nat) (st : State) (t : Ty),
      (env.selfClone (.chanT t) = none → env.cloners (.chanT t) = none →
         deepClone env (f + 1) st (.chanV t)
           = .err (.unclonable "channels cannot be cloned") st) ∧
      (env.selfClone .funcT = none → env.cloners .funcT = none →
         deepClone env (f + 1) st .funcV
           = .err (.unclonable "functions cannot be cloned") st) := by
  intro env f st t
  exact ⟨fun hs hc => deepClone_chan_eq hs hc, fun hs hc => deepClone_func_eq hs hc⟩

/-- Witness for C6: both rejections in the empty environment. -/
theorem C6_witness :
    deepClone emptyEnv 1 (NewCloneManager [] 0) (.chanV .intT)
        = .err (.unclonable "channels cannot be cloned") (NewCloneManager [] 0) ∧
    deepClone emptyEnv 1 (NewCloneManager [] 0) .funcV
        = .err (.unclonable "functions cannot be cloned") (NewCloneManager [] 0) :=
  ⟨(C6_unclonable_kinds_fail emptyEnv 0 (NewCloneManager [] 0) .intT).1 rfl rfl,
   (C6_unclonable_kinds_fail emptyEnv 0 (NewCloneManager [] 0) .intT).2 rfl rfl⟩

/-- C7: dispatch priority.  (1) A value whose dynamic type implements
the self-cloning capability is delegated entirely to it, receiving the
engine handle; (2) otherwise a cloner registered for the exact dynamic
type is invoked with the handle; (3) a registered cloner for struct
type `T` is used for every occurrence of exactly `T` nested inside a
slice: both elements come out as the cloner's marker, not as structural
copies. -/
theorem C7_dispatch_priority :
    (∀ (env : Env) (f : Nat) (st : State) (v u : Val) (fn : ClonerFn),
       dynVal v = some u → env.selfClone (tyOf u) = some fn →
       deepClone env (f + 1) st v = fn (deepClone env f) u st) ∧
    (∀ (env : Env) (f : Nat) (st : State) (v u : Val) (fn : ClonerFn),
       dynVal v = some u → env.selfClone (tyOf u) = none →
       env.cloners (tyOf v) = some fn →
       deepClone env (f + 1) st v = fn (deepClone env f) v st) ∧
    (deepClone envT 5 nestedState (.sliceV (.structT "T") 20)
       = .ok (some (.sliceV (.structT "T") 21))
         { heap := [(21, .arrC [.structV "T" [(true, .intV 99)],
                                .structV "T" [(true, .intV 99)]]),
                    (20, .arrC [.structV "T" [(true, .intV 1)],
                                .structV "T" [(true, .intV 2)]])],
           next := 22,
           visited := [(20, .sliceV (.structT "T") 21)] }) := by
  refine ⟨?_, ?_, by rfl⟩
  · intro env f st v u fn hd hs
    simp only [deepClone, hd, hs]
  · intro env f st v u fn hd hs hc
    simp only [deepClone, hd, hs, deepCloneStep, hc]

/-- Witness for C7: the registered `markerCloner` intercepts a direct
occurrence of type `T`. -/
theorem C7_witness :
    deepClone envT 1 (NewCloneManager [] 0) (.structV "T" [(true, .intV 1)])
      = .ok (some (.structV "T" [(true, .intV 99)])) (NewCloneManager [] 0) :=
  C7_dispatch_priority.2.1 envT 0 (NewCloneManager [] 0)
    (.structV "T" [(true, .intV 1)]) (.structV "T" [(true, .intV 1)])
    markerCloner rfl rfl rfl

/-- C8: failure propagation.  (1) If, after any successfully processed
prefix, cloning the next slice element fails, the whole element loop
fails with exactly that error; (2)/(3) the same for a failing key or a
failing value in the map entry loop; (4) end to end, a slice containing
a channel makes the top-level clone fail with the unclonable error and
produce no clone value. -/
theorem C8_errors_propagate :
    (∀ (rc : RecFn) (st : State) (b i : Nat) (pre : List Val) (x : Val)
       (rest : List Val) (er : Err) (st1 st2 : State),
       cloneSliceElems rc st b i pre = .ok () st1 →
       rc st1 x = .err er st2 →
       cloneSliceElems rc st b i (pre ++ x :: rest) = .err er st2) ∧
    (∀ (rc : RecFn) (st : State) (b : Nat) (pre : List (Val × Val)) (k v : Val)
       (rest : List (Val × Val)) (er : Err) (st1 st2 : State),
       cloneMapEntries rc st b pre = .ok () st1 →
       rc st1 k = .err er st2 →
       cloneMapEntries rc st b (pre ++ (k, v) :: rest) = .err er st2) ∧
    (∀ (rc : RecFn) (st : State) (b : Nat) (pre : List (Val × Val)) (k v : Val)
       (rest : List (Val × Val)) (er : Err) (ck : Option Val) (st1 st2 st3 : State),
       cloneMapEntries rc st b pre = .ok () st1 →
       rc st1 k = .ok ck st2 → rc st2 v = .err er st3 →
       cloneMapEntries rc st b (pre ++ (k, v) :: rest) = .err er st3) ∧
    (deepClone emptyEnv 3 chanSliceState (.sliceV (.chanT .intT) 30)
       = .err (.unclonable "channels cannot be cloned")
         { heap := [(31, .arrC [.chanV .intT]), (30, .arrC [.chanV .intT])],
           next := 32,
           visited := [(30, .sliceV (.chanT .intT) 31)] }) := by
  refine ⟨?_, ?_, ?_, by rfl⟩
  · intro rc st b i pre x rest er st1 st2 h1 h2
    rw [cloneSliceElems_append, h1]
    simp only [cloneSliceElems, h2]
  · intro rc st b pre k v rest er st1 st2 h1 h2
    rw [cloneMapEntries_append, h1]
    simp only [cloneMapEntries, h2]
  · intro rc st b pre k v rest er ck st1 st2 st3 h1 h2 h3
    rw [cloneMapEntries_append, h1]
    simp only [cloneMapEntries, h2, h3]

/-- Witness for C8: a channel in the second position of a slice aborts
the element loop with the unclonable error. -/
theorem C8_witness :
    cloneSliceElems (deepClone emptyEnv 2)
        { heap := [(40, .arrC [.intV 1, .chanV .intT]), (41, .arrC [.intV 0, .intV 0])],
          next := 42, visited := [] }
        41 0 [.intV 1, .chanV .intT]
      = .err (.unclonable "channels cannot be cloned")
          { heap := [(40, .arrC [.intV 1, .chanV .intT]), (41, .arrC [.intV 1, .intV 0])],
            next := 42, visited := [] } :=
  C8_errors_propagate.1 (deepClone emptyEnv 2)
    { heap := [(40, .arrC [.intV 1, .chanV .intT]), (41, .arrC [.intV 0, .intV 0])],
      next := 42, visited := [] }
    41 0 [.intV 1] (.chanV .intT) [] (.unclonable "channels cannot be cloned")
    { heap := [(40, .arrC [.intV 1, .chanV .intT]), (41, .arrC [.intV 1, .intV 0])],
      next := 42, visited := [] }
    { heap := [(40, .arrC [.intV 1, .chanV .intT]), (41, .arrC [.intV 1, .intV 0])],
      next := 42, visited := [] }
    rfl rfl

/-- C9: the visited registry only grows.  (1) Every clone step — also
one that returns an error — keeps every existing registry binding, for
any well-behaved environment; nothing ever removes an entry.  (2) Since
the registry lives in the manager and persists across top-level calls,
a second clone of a pointer identity already cloned by an earlier call
on the same manager returns the identical clone object and leaves the
state untouched. -/
theorem C9_registry_only_grows :
    (∀ (env : Env), GoodEnv env →
       ∀ (f : Nat) (st : State) (v : Val), ResPres (deepClone env f st v) st) ∧
    (∀ (env : Env) (f g : Nat) (st st' : State) (t : Ty) (a : Nat) (r : Option Val),
       env.selfClone (.ptrT t) = none → env.cloners (.ptrT t) = none →
       deepClone env (f + 1) st (.ptrV t a) = .ok r st' →
       deepClone env (g + 1) st' (.ptrV t a) = .ok r st') := by
  constructor
  · intro env hg f st v
    exact deepClone_pres env hg f st v
  · intro env f g st st' t a r hs hc h
    rw [deepClone_ptr_eq hs hc] at h
    obtain ⟨w, hr, hfind⟩ := clonePtr_reg h
    rw [hr, deepClone_ptr_eq hs hc]
    exact clonePtr_hit hfind

/-- Witness for C9: after cloning the pointer at identity 0 once on a
fresh manager, cloning it again on the same manager returns the
identical clone at identity 1 and changes nothing. -/
theorem C9_witness :
    deepClone emptyEnv 2
        { heap := [(1, .refC (.intV 5)), (0, .refC (.intV 5))],
          next := 2, visited := [(0, .ptrV .intT 1)] }
        (.ptrV .intT 0)
      = .ok (some (.ptrV .intT 1))
        { heap := [(1, .refC (.intV 5)), (0, .refC (.intV 5))],
          next := 2, visited := [(0, .ptrV .intT 1)] } :=
  C9_registry_only_grows.2 emptyEnv 1 1 ptrIntState
    { heap := [(1, .refC (.intV 5)), (0, .refC (.intV 5))],
      next := 2, visited := [(0, .ptrV .intT 1)] }
    .intT 0 (some (.ptrV .intT 1)) rfl rfl rfl

/-- C10: struct cloning.  (1) Every field the engine cannot set comes
out of the field loop at the zero value of its type, untouched by the
cloning; (2) a struct whose settable fields hold a nil pointer, nil
slice and nil map clones without error to a struct with those fields at
their zero values — the nil results are skipped rather than written —
and the state is unchanged. -/
theorem C10_struct_nil_and_unsettable_fields :
    (∀ (rc : RecFn) (fields : List (Bool × Val)) (st : State)
       (out : List (Bool × Val)) (st' : State),
       cloneStructFields rc st fields = .ok out st' →
       ∀ (i : Nat) (v : Val), fields[i]? = some (false, v) →
         out[i]? = some (false, zeroOf v)) ∧
    (∀ (env : Env) (f : Nat) (st : State) (n : String) (t t2 kt vt : Ty),
       env.selfClone (.structT n) = none → env.cloners (.structT n) = none →
       env.selfClone (.ptrT t) = none → env.cloners (.ptrT t) = none →
       env.selfClone (.sliceT t2) = none → env.cloners (.sliceT t2) = none →
       env.selfClone (.mapT kt vt) = none → env.cloners (.mapT kt vt) = none →
       deepClone env (f + 2) st
           (.structV n [(true, .nilPtr t), (true, .nilSlice t2), (true, .nilMap kt vt)])
         = .ok (some (.structV n
             [(true, .nilPtr t), (true, .nilSlice t2), (true, .nilMap kt vt)])) st) := by
  constructor
  · intro rc fields st out st' h i v hi
    exact cloneStructFields_unsettable rc fields st out st' h i v hi
  · intro env f st n t t2 kt vt hs0 hc0 hs1 hc1 hs2 hc2 hs3 hc3
    rw [deepClone_struct_eq hs0 hc0]
    simp [cloneStruct, cloneStructFields,
      deepClone_nilPtr_eq hs1 hc1, deepClone_nilSlice_eq hs2 hc2,
      deepClone_nilMap_eq hs3 hc3, zeroOf]

/-- Witness for C10: the nil-fielded struct in the empty environment,
and an unsettable field left at zero. -/
theorem C10_witness :
    deepClone emptyEnv 2 (NewCloneManager [] 0)
        (.structV "S" [(true, .nilPtr .intT), (true, .nilSlice .intT),
                       (true, .nilMap .strT .intT)])
      = .ok (some (.structV "S" [(true, .nilPtr .intT), (true, .nilSlice .intT),
                                 (true, .nilMap .strT .intT)]))
        (NewCloneManager [] 0) ∧
    ([(false, Val.intV 0)] : List (Bool × Val))[0]? = some (false, zeroOf (Val.intV 7)) :=
  ⟨C10_struct_nil_and_unsettable_fields.2 emptyEnv 0 (NewCloneManager [] 0) "S"
      .intT .intT .strT .intT rfl rfl rfl rfl rfl rfl rfl rfl,
   C10_struct_nil_and_unsettable_fields.1 (fun st _ => .ok none st)
      [(false, Val.intV 7)] (NewCloneManager [] 0) [(false, Val.intV 0)]
      (NewCloneManager [] 0) rfl 0 (Val.intV 7) rfl⟩
